import Mathlib

/-!
Verification of the PDF text-extraction pipeline (`pdf_extractor_python.py`).

Strings are modelled as `List Char` (Python `len` counts code points, which
matches `List.length`).  Python floats are modelled as rationals `ℚ`.
External collaborators (pdfplumber text extraction, pdf2image rasterization,
EasyOCR recognition, cv2 polyline drawing) are parameters of the pipeline,
collected in a `PdfEnv`; a raised exception is modelled as `Except.error ()`.
-/

set_option maxRecDepth 4000

namespace PdfExtract

/-- Whitespace characters recognised by Python `str.split()` / `str.strip()`
(ASCII fragment). -/
def isPySpace (c : Char) : Bool :=
  c = ' ' || c = '\t' || c = '\n' || c = '\r' || c = '\x0b' || c = '\x0c'

/-- Python `str.strip()`: drop leading and trailing whitespace. -/
def pyStrip (s : List Char) : List Char :=
  ((s.dropWhile isPySpace).reverse.dropWhile isPySpace).reverse

/-- Helper for `pySplit`: accumulates the current (reversed) token. -/
def pySplitAux : List Char → List Char → List (List Char)
  | [], [] => []
  | [], acc => [acc.reverse]
  | c :: rest, acc =>
    if isPySpace c then
      match acc with
      | [] => pySplitAux rest []
      | _ :: _ => acc.reverse :: pySplitAux rest []
    else
      pySplitAux rest (c :: acc)

/-- Python `str.split()` with no argument: split on runs of whitespace,
discarding empty tokens. -/
def pySplit (s : List Char) : List (List Char) :=
  pySplitAux s []

/-- Source `count_words_and_chars`: words via `text.split()`, characters with
spaces via `len(text)`, characters without spaces via
`text.replace(" ", "").replace("\n", "")`. -/
def count_words_and_chars (text : List Char) : Nat × Nat × Nat :=
  let words := (pySplit text).length
  let chars_with_spaces := text.length
  let chars_without_spaces :=
    ((text.filter (fun c => !(c == ' '))).filter (fun c => !(c == '\n'))).length
  (words, chars_with_spaces, chars_without_spaces)

/-- Specification-side token counter: number of maximal runs of
non-whitespace characters.  The flag records whether we are inside a token. -/
def countTokensAux : List Char → Bool → Nat
  | [], _ => 0
  | c :: rest, inTok =>
    if isPySpace c then countTokensAux rest false
    else (if inTok then 0 else 1) + countTokensAux rest true

/-- Number of whitespace-delimited tokens of a string (specification reading). -/
def countTokens (s : List Char) : Nat :=
  countTokensAux s false

/-- RGB pixel. -/
abbrev Pixel : Type := Nat × Nat × Nat

/-- PIL image: a pixel grid. -/
structure Image where
  data : List (List Pixel)
deriving DecidableEq

/-- Numpy array obtained from a PIL image (`np.array(image)`). -/
structure NpArray where
  data : List (List Pixel)
deriving DecidableEq

/-- PIL `image.copy()`. -/
def Image.copy (img : Image) : Image := img

/-- `np.array(image)`. -/
def npArrayOfImage (img : Image) : NpArray := ⟨img.data⟩

/-- `Image.fromarray(arr)`. -/
def Image.fromarray (arr : NpArray) : Image := ⟨arr.data⟩

/-- One EasyOCR detection: `(bbox, text, conf)`. -/
structure OCRDetection where
  bbox : List (Int × Int)
  text : List Char
  conf : ℚ
deriving DecidableEq

/-- External collaborators of the pipeline.  `Except.error ()` models a raised
exception; `extractText` additionally returns `none` for a `None` result of
`page.extract_text()`.  `polylines` is cv2's in-place polyline drawing,
taking the array, the points, the `isClosed` flag, the colour and the
thickness. -/
structure PdfEnv where
  openPdf : Except Unit Nat
  extractText : Nat → Except Unit (Option (List Char))
  rasterize : Nat → Except Unit (List Image)
  readtext : NpArray → Except Unit (List OCRDetection)
  polylines : NpArray → List (Int × Int) → Bool → Pixel → Nat → NpArray

/-- Source `extract_text_from_page`: `text if text else ""`, and any raised
exception is swallowed into the empty string. -/
def extract_text_from_page (env : PdfEnv) (page_num : Nat) : List Char :=
  match env.extractText page_num with
  | .error _ => []
  | .ok none => []
  | .ok (some t) => t

/-- Source `perform_ocr`: run `reader.readtext` on `np.array(image)`; on zero
detections return `("", 0.0, [])`; otherwise the texts joined by single
spaces, the arithmetic mean of the confidences, and the bounding boxes. -/
def perform_ocr (env : PdfEnv) (image : Image) :
    Except Unit (List Char × ℚ × List (List (Int × Int))) :=
  let img_array := npArrayOfImage image
  match env.readtext img_array with
  | .error e => .error e
  | .ok results =>
    match results with
    | [] => .ok ([], 0, [])
    | _ :: _ =>
      let texts := results.map OCRDetection.text
      let confidences := results.map OCRDetection.conf
      let bboxes := results.map OCRDetection.bbox
      let avg_confidence :=
        if confidences.isEmpty then 0 else confidences.sum / (confidences.length : ℚ)
      let full_text := List.intercalate [' '] texts
      .ok (full_text, avg_confidence, bboxes)

/-- Source `draw_bboxes_on_image`: copy the image into an array, draw every
bounding box as a closed polyline of colour `(0, 255, 0)` and thickness `2`,
and return the resulting image. -/
def draw_bboxes_on_image (polyf : NpArray → List (Int × Int) → Bool → Pixel → Nat → NpArray)
    (image : Image) (bboxes : List (List (Int × Int))) : Image :=
  let img_array := npArrayOfImage image.copy
  Image.fromarray (bboxes.foldl (fun a pts => polyf a pts true (0, 255, 0) 2) img_array)

/-- Decimal rendering of a natural number. -/
def natStr (n : Nat) : List Char := (Nat.repr n).toList

/-- Python `f"{q * 100:.1f}%"`: the confidence as a percentage with one
decimal place (rounding to the nearest tenth of a percent). -/
def fmtPct (q : ℚ) : List Char :=
  let n : ℤ := round (q * 1000)
  (if n < 0 then ['-'] else []) ++ natStr (n.natAbs / 10) ++ '.' :: natStr (n.natAbs % 10) ++ ['%']

/-- The `page_info` dictionary built per page. -/
structure PageInfo where
  page_num : Nat
  type : List Char
  confidence : List Char
  text : List Char
  word_count : Nat
  preview_image : Option Image
deriving DecidableEq

/-- The `results` dictionary of `process_pdf` (with `extracted_text`). -/
structure Results where
  pages : List PageInfo
  total_words : Nat
  total_chars_with_spaces : Nat
  total_chars_without_spaces : Nat
  total_pages : Nat
  editable_pages : Nat
  scanned_pages : Nat
  hybrid_pages : Nat
  extracted_text : List Char
deriving DecidableEq

/-- Initial `results` dictionary. -/
def initResults : Results :=
  { pages := [], total_words := 0, total_chars_with_spaces := 0,
    total_chars_without_spaces := 0, total_pages := 0, editable_pages := 0,
    scanned_pages := 0, hybrid_pages := 0, extracted_text := [] }

/-- Per-page body of the loop in `process_pdf`, up to the statistics fold:
classify the page, run OCR when the stripped embedded text is short, and
return the page record together with the increments of the
editable/scanned/hybrid counters (in that order). -/
def processPage (env : PdfEnv) (page_num : Nat) :
    Except Unit (PageInfo × Nat × Nat × Nat) :=
  let editable_text := extract_text_from_page env page_num
  let pi0 : PageInfo :=
    { page_num := page_num, type := [], confidence := "N/A".toList,
      text := [], word_count := 0, preview_image := none }
  if (pyStrip editable_text).length < 50 then
    match env.rasterize page_num with
    | .error e => .error e
    | .ok images =>
      match images with
      | page_image :: _ =>
        match perform_ocr env page_image with
        | .error e => .error e
        | .ok (ocr_text, confidence, bboxes) =>
          let classified :=
            if 0 < (pyStrip editable_text).length then
              ({ pi0 with type := "Hybrid".toList,
                          text := editable_text ++ '\n' :: ocr_text }, 0, 0, 1)
            else
              ({ pi0 with type := "Scanned".toList, text := ocr_text }, 0, 1, 0)
          .ok ({ classified.1 with
                 confidence := fmtPct confidence,
                 preview_image :=
                   some (draw_bboxes_on_image env.polylines page_image bboxes) },
               classified.2)
      | [] => .ok (pi0, 0, 0, 0)
  else
    .ok ({ pi0 with type := "Editable".toList, text := editable_text }, 1, 0, 0)

/-- The per-page paragraph appended to `all_text_content`. -/
def pageBlock (pi : PageInfo) : List Char :=
  '\n' :: ("PAGE ".toList ++ natStr pi.page_num ++ " | Type: ".toList ++ pi.type ++
    " | Confidence: ".toList ++ pi.confidence ++ '\n' :: List.replicate 60 '-' ++
    '\n' :: pi.text ++ ['\n'])

/-- One full iteration of the page loop: classify, count words and
characters, fold the statistics into `results`, append the page record and
its report paragraph. -/
def pageStep (env : PdfEnv) (r : Results) (acc : List (List Char)) (n : Nat) :
    Except Unit (Results × List (List Char)) :=
  match processPage env n with
  | .error e => .error e
  | .ok (pi0, ed, sc, hy) =>
    let counts := count_words_and_chars pi0.text
    let pi := { pi0 with word_count := counts.1 }
    let r2 : Results :=
      { r with
        total_words := r.total_words + counts.1,
        total_chars_with_spaces := r.total_chars_with_spaces + counts.2.1,
        total_chars_without_spaces := r.total_chars_without_spaces + counts.2.2,
        editable_pages := r.editable_pages + ed,
        scanned_pages := r.scanned_pages + sc,
        hybrid_pages := r.hybrid_pages + hy,
        pages := r.pages ++ [pi] }
    .ok (r2, acc ++ [pageBlock pi])

/-- The page loop of `process_pdf` over the given page numbers. -/
def processPages (env : PdfEnv) : List Nat → Results → List (List Char) →
    Except Unit (Results × List (List Char))
  | [], r, acc => .ok (r, acc)
  | n :: rest, r, acc =>
    match pageStep env r acc n with
    | .error e => .error e
    | .ok (r2, acc2) => processPages env rest r2 acc2

/-- The report header: a line of 60 `=`, the title, another line of 60 `=`,
the totals, and a closing line of 60 `=`. -/
def headerText (r : Results) : List Char :=
  List.replicate 60 '=' ++ '\n' :: "PDF TEXT EXTRACTION REPORT".toList ++
  '\n' :: List.replicate 60 '=' ++
  '\n' :: "Total Word Count: ".toList ++ natStr r.total_words ++
  '\n' :: "Total Character Count (with spaces): ".toList ++ natStr r.total_chars_with_spaces ++
  '\n' :: "Total Character Count (without spaces): ".toList ++ natStr r.total_chars_without_spaces ++
  '\n' :: "Total Pages Processed: ".toList ++ natStr r.total_pages ++
  '\n' :: "Editable Pages: ".toList ++ natStr r.editable_pages ++
  '\n' :: "Scanned Pages: ".toList ++ natStr r.scanned_pages ++
  '\n' :: "Hybrid Pages: ".toList ++ natStr r.hybrid_pages ++
  '\n' :: List.replicate 60 '=' ++ ['\n']

/-- Source `process_pdf`: open the document, process every page in order,
then prepend the header to the joined page paragraphs.  Any exception
(opening the document, rasterization, OCR) yields `none`. -/
def process_pdf (env : PdfEnv) : Option Results :=
  match env.openPdf with
  | .error _ => none
  | .ok total_pages =>
    let r0 := { initResults with total_pages := total_pages }
    match processPages env (List.range' 1 total_pages) r0 [] with
    | .error _ => none
    | .ok (r, acc) => some { r with extracted_text := headerText r ++ acc.flatten }

/-! Concrete environments used as test inputs. -/

/-- Drawing primitive that leaves the array unchanged. -/
def noDraw : NpArray → List (Int × Int) → Bool → Pixel → Nat → NpArray :=
  fun a _ _ _ _ => a

/-- A one-pixel raster image. -/
def img1 : Image := ⟨[[(0, 0, 0)]]⟩

/-- Environment whose single page has the whitespace-only embedded text
`" "` and one OCR detection. -/
def envA : PdfEnv :=
  { openPdf := .ok 1,
    extractText := fun _ => .ok (some " ".toList),
    rasterize := fun _ => .ok [img1],
    readtext := fun _ => .ok [⟨[(0, 0)], "Hi".toList, 9/10⟩],
    polylines := noDraw }

/-- Environment whose single page has the short embedded text `"Header"` and
one OCR detection reading `"Body"`. -/
def envH : PdfEnv :=
  { openPdf := .ok 1,
    extractText := fun _ => .ok (some "Header".toList),
    rasterize := fun _ => .ok [img1],
    readtext := fun _ => .ok [⟨[(0, 0)], "Body".toList, 1⟩],
    polylines := noDraw }

/-- Environment whose single page has a 50-character embedded text. -/
def envE : PdfEnv :=
  { openPdf := .ok 1,
    extractText := fun _ => .ok (some (List.replicate 50 'x')),
    rasterize := fun _ => .ok [img1],
    readtext := fun _ => .ok [],
    polylines := noDraw }

/-- Variant of `envE` whose rasterizer and OCR engine raise. -/
def envE2 : PdfEnv :=
  { envE with rasterize := fun _ => .error (), readtext := fun _ => .error () }

/-- Environment whose OCR engine returns exactly one detection, with
confidence `0`. -/
def envB : PdfEnv :=
  { openPdf := .ok 1,
    extractText := fun _ => .ok (some []),
    rasterize := fun _ => .ok [img1],
    readtext := fun _ => .ok [⟨[(0, 0)], "x".toList, 0⟩],
    polylines := noDraw }

/-- Environment whose rasterizer raises on every page. -/
def envF : PdfEnv :=
  { openPdf := .ok 1,
    extractText := fun _ => .error (),
    rasterize := fun _ => .error (),
    readtext := fun _ => .ok [],
    polylines := noDraw }

/-- Environment whose single page rasterizes to an empty image list
(no exception). -/
def envJ : PdfEnv :=
  { openPdf := .ok 1,
    extractText := fun _ => .ok (some []),
    rasterize := fun _ => .ok [],
    readtext := fun _ => .ok [],
    polylines := noDraw }

/-- The result record of running the pipeline on `envE`. -/
def resE : Results := (process_pdf envE).getD initResults

/-- The page record produced for the single page of `envH`. -/
def pageH : PageInfo :=
  ((processPage envH 1).toOption.getD
    ({ page_num := 0, type := [], confidence := [], text := [], word_count := 0,
       preview_image := none }, 0, 0, 0)).1

/-- The result record of running the pipeline on `envJ`. -/
def resJ : Results := (process_pdf envJ).getD initResults

/-- Statistics invariant of a `Results` record: the totals are the sums of
the per-page values, each page-type counter counts the pages of that type,
and every page's confidence field is either the `"N/A"` sentinel or a
formatted percentage. -/
def statsInv (r : Results) : Prop :=
  r.total_words = (r.pages.map PageInfo.word_count).sum ∧
  r.total_chars_with_spaces = (r.pages.map (fun p => p.text.length)).sum ∧
  r.total_chars_without_spaces =
    (r.pages.map (fun p => (count_words_and_chars p.text).2.2)).sum ∧
  r.editable_pages = r.pages.countP (fun p => p.type == "Editable".toList) ∧
  r.scanned_pages = r.pages.countP (fun p => p.type == "Scanned".toList) ∧
  r.hybrid_pages = r.pages.countP (fun p => p.type == "Hybrid".toList) ∧
  ∀ p ∈ r.pages, p.confidence = "N/A".toList ∨ ∃ q, p.confidence = fmtPct q

/-! Theorems. -/

/-- Number of tokens produced by the splitting accumulator: one extra token
when a partial token is pending. -/
theorem pySplitAux_length (s : List Char) : ∀ acc : List Char,
    (pySplitAux s acc).length =
      if acc.isEmpty then countTokensAux s false else 1 + countTokensAux s true := by
  induction s with
  | nil =>
    intro acc
    cases acc <;> simp [pySplitAux, countTokensAux]
  | cons c rest ih =>
    intro acc
    by_cases hc : isPySpace c
    · cases acc <;> simp [pySplitAux, countTokensAux, hc, ih, Nat.add_comm]
    · cases acc <;> simp [pySplitAux, countTokensAux, hc, ih]

/-- C6: the word count is the number of whitespace-delimited tokens (0 for
the empty string, 3 for `"a  b\nc"`), the character count with spaces is the
string length, and the character count without spaces removes exactly the
characters `' '` and `'\n'` (so `"a\tb c"` gives 4). -/
theorem count_words_and_chars_correct (t : List Char) :
    (count_words_and_chars t).1 = countTokens t ∧
    (count_words_and_chars t).2.1 = t.length ∧
    (count_words_and_chars t).2.2 = (t.filter (fun c => !(c == ' ' || c == '\n'))).length ∧
    count_words_and_chars [] = (0, 0, 0) ∧
    (count_words_and_chars ("a  b\nc".toList)).1 = 3 ∧
    (count_words_and_chars ("a\tb c".toList)).2.2 = 4 ∧
    (count_words_and_chars ("a\tb c".toList)).1 = 3 := by
  refine ⟨?_, rfl, ?_, by decide, by decide, by decide, by decide⟩
  · simpa [count_words_and_chars, pySplit, countTokens] using pySplitAux_length t []
  · simp only [count_words_and_chars, List.filter_filter]
    congr 1
    exact List.filter_congr fun a _ => by
      cases ha : a == ' ' <;> cases hb : a == '\n' <;> simp [ha, hb]

/-- Converting an image to an array and back is the identity. -/
theorem fromarray_npArrayOfImage (img : Image) :
    Image.fromarray (npArrayOfImage img) = img := by
  cases img
  rfl

/-- Converting an array to an image and back is the identity. -/
theorem npArrayOfImage_fromarray (arr : NpArray) :
    npArrayOfImage (Image.fromarray arr) = arr := by
  cases arr
  rfl

/-- C9: the annotation renderer is pure — it works on a copy of the input
image, returns that unmodified copy when the detection list is empty, and
draws each bounding box in order as a closed polyline of colour
`(0, 255, 0)` (green) with thickness `2` via the drawing primitive. -/
theorem draw_bboxes_on_image_pure
    (polyf : NpArray → List (Int × Int) → Bool → Pixel → Nat → NpArray)
    (image : Image) :
    draw_bboxes_on_image polyf image [] = image ∧
    draw_bboxes_on_image polyf image [] = image.copy ∧
    ∀ (bs : List (List (Int × Int))) (b : List (Int × Int)),
      draw_bboxes_on_image polyf image (bs ++ [b]) =
        Image.fromarray
          (polyf (npArrayOfImage (draw_bboxes_on_image polyf image bs)) b true (0, 255, 0) 2) := by
  refine ⟨fromarray_npArrayOfImage image, fromarray_npArrayOfImage image, fun bs b => ?_⟩
  simp only [draw_bboxes_on_image, List.foldl_append, List.foldl_cons, List.foldl_nil,
    npArrayOfImage_fromarray]

/-- C4 (amended): for an OCR'd image with detection confidences in
`[0, 1]`, the returned per-page confidence is the arithmetic mean of the
confidences, lies in `[0, 1]`, is `0` when there are zero detections, and is
`0` exactly when every detection confidence is `0` (in particular the
division by the number of detections only happens when it is nonzero). -/
theorem perform_ocr_confidence (env : PdfEnv) (image : Image) (dets : List OCRDetection)
    (hread : env.readtext (npArrayOfImage image) = .ok dets)
    (hconf : ∀ d ∈ dets, 0 ≤ d.conf ∧ d.conf ≤ 1) :
    ∃ t c b, perform_ocr env image = .ok (t, c, b) ∧
      0 ≤ c ∧ c ≤ 1 ∧
      (dets = [] → c = 0) ∧
      (dets ≠ [] → c = (dets.map OCRDetection.conf).sum / (dets.length : ℚ)) ∧
      (c = 0 ↔ ∀ d ∈ dets, d.conf = 0) := by
  cases dets with
  | nil =>
    refine ⟨[], 0, [], ?_, le_refl 0, by norm_num, fun _ => rfl,
      fun hne => absurd rfl hne, by simp⟩
    simp [perform_ocr, hread]
  | cons d0 rest =>
    have hnn : ∀ x ∈ ((d0 :: rest).map OCRDetection.conf), (0 : ℚ) ≤ x := by
      intro x hx
      rcases List.mem_map.mp hx with ⟨d, hd, rfl⟩
      exact (hconf d hd).1
    have hlenpos : (0 : ℚ) < ((d0 :: rest).length : ℚ) := by
      exact_mod_cast Nat.succ_pos rest.length
    have hsum0 : (0 : ℚ) ≤ ((d0 :: rest).map OCRDetection.conf).sum :=
      List.sum_nonneg hnn
    have hsumle : ((d0 :: rest).map OCRDetection.conf).sum ≤ (((d0 :: rest).length : Nat) : ℚ) := by
      have h1 : ((d0 :: rest).map OCRDetection.conf).sum ≤
          ((d0 :: rest).map OCRDetection.conf).length • (1 : ℚ) := by
        refine List.sum_le_card_nsmul _ 1 ?_
        intro x hx
        rcases List.mem_map.mp hx with ⟨d, hd, rfl⟩
        exact (hconf d hd).2
      simpa [List.length_map, nsmul_eq_mul] using h1
    refine ⟨List.intercalate [' '] ((d0 :: rest).map OCRDetection.text),
      ((d0 :: rest).map OCRDetection.conf).sum / (((d0 :: rest).length : Nat) : ℚ),
      (d0 :: rest).map OCRDetection.bbox, ?_, ?_, ?_, ?_, ?_, ?_⟩
    · simp [perform_ocr, hread]
    · exact div_nonneg hsum0 hlenpos.le
    · exact (div_le_one hlenpos).mpr hsumle
    · intro h
      exact absurd h (List.cons_ne_nil d0 rest)
    · intro _
      rfl
    · constructor
      · intro hz d hd
        have hd0 : d.conf ∈ ((d0 :: rest).map OCRDetection.conf) :=
          List.mem_map.mpr ⟨d, hd, rfl⟩
        have hsumz : ((d0 :: rest).map OCRDetection.conf).sum = 0 := by
          rcases (div_eq_zero_iff.mp hz) with h | h
          · exact h
          · exact absurd h hlenpos.ne'
        have hle : d.conf ≤ ((d0 :: rest).map OCRDetection.conf).sum :=
          List.single_le_sum hnn _ hd0
        exact le_antisymm (hsumz ▸ hle) (hconf d hd).1
      · intro hall
        have hsumz : ((d0 :: rest).map OCRDetection.conf).sum = 0 := by
          refine List.sum_eq_zero ?_
          intro x hx
          rcases List.mem_map.mp hx with ⟨d, hd, rfl⟩
          exact hall d hd
        rw [hsumz, zero_div]

/-- C4 counterexample to the claim as stated: the OCR engine returns one
detection (not zero) with confidence `0`, and the per-page confidence is
nevertheless `0`. -/
theorem perform_ocr_zero_conf_counterexample :
    envB.readtext (npArrayOfImage img1) = .ok [⟨[(0, 0)], "x".toList, 0⟩] ∧
    perform_ocr envB img1 = .ok ("x".toList, 0, [[(0, 0)]]) ∧
    ([(⟨[(0, 0)], "x".toList, 0⟩ : OCRDetection)] : List OCRDetection) ≠ [] := by
  refine ⟨rfl, ?_, by decide⟩
  simp [perform_ocr, envB, img1, npArrayOfImage, noDraw]
  decide

/-- Concrete instance of `perform_ocr_confidence` on `envA`. -/
theorem perform_ocr_confidence_witness :
    ∃ t c b, perform_ocr envA img1 = .ok (t, c, b) ∧
      0 ≤ c ∧ c ≤ 1 ∧
      (([(⟨[(0, 0)], "Hi".toList, 9/10⟩ : OCRDetection)] : List OCRDetection) = [] → c = 0) ∧
      (([(⟨[(0, 0)], "Hi".toList, 9/10⟩ : OCRDetection)] : List OCRDetection) ≠ [] →
        c = (([(⟨[(0, 0)], "Hi".toList, 9/10⟩ : OCRDetection)] : List OCRDetection).map
          OCRDetection.conf).sum /
          ((([(⟨[(0, 0)], "Hi".toList, 9/10⟩ : OCRDetection)] : List OCRDetection).length : Nat) : ℚ)) ∧
      (c = 0 ↔ ∀ d ∈ ([(⟨[(0, 0)], "Hi".toList, 9/10⟩ : OCRDetection)] : List OCRDetection),
        d.conf = 0) :=
  perform_ocr_confidence envA img1 [⟨[(0, 0)], "Hi".toList, 9/10⟩] rfl (by
    intro d hd
    simp only [List.mem_singleton] at hd
    subst hd
    norm_num)

/-- Stripping the empty string gives the empty string. -/
theorem pyStrip_nil : pyStrip [] = [] := rfl

/-- C1 (amended): a page whose stripped embedded text is non-empty but
shorter than 50 characters, and for which rasterization and OCR run, is
classified Hybrid, and its merged text is the embedded text, a newline, and
the OCR texts joined by single spaces in the engine's returned order. -/
theorem processPage_hybrid (env : PdfEnv) (n : Nat) (img : Image) (imgs : List Image)
    (dets : List OCRDetection)
    (h1 : 0 < (pyStrip (extract_text_from_page env n)).length)
    (h2 : (pyStrip (extract_text_from_page env n)).length < 50)
    (h3 : env.rasterize n = .ok (img :: imgs))
    (h4 : env.readtext (npArrayOfImage img) = .ok dets) :
    ∃ pi cnt, processPage env n = .ok (pi, cnt) ∧
      pi.type = "Hybrid".toList ∧
      pi.text = extract_text_from_page env n ++ '\n' ::
        List.intercalate [' '] (dets.map OCRDetection.text) := by
  cases dets with
  | nil =>
    simp only [processPage, h3, perform_ocr, h4, if_pos h2, if_pos h1]
    exact ⟨_, _, rfl, rfl, rfl⟩
  | cons d0 rest =>
    simp only [processPage, h3, perform_ocr, h4, if_pos h2, if_pos h1]
    exact ⟨_, _, rfl, rfl, rfl⟩

/-- C1 counterexample to the claim as stated: the raw embedded text `" "`
is non-empty and strips below the threshold, rasterization and OCR run, yet
the page is classified Scanned, not Hybrid. -/
theorem processPage_raw_nonempty_counterexample :
    extract_text_from_page envA 1 = [' '] ∧
    ([' '] : List Char) ≠ [] ∧
    (pyStrip (extract_text_from_page envA 1)).length < 50 ∧
    envA.rasterize 1 = .ok [img1] ∧
    envA.readtext (npArrayOfImage img1) = .ok [⟨[(0, 0)], "Hi".toList, 9/10⟩] ∧
    (processPage envA 1).toOption.map (fun x => x.1.type) = some ("Scanned".toList) ∧
    "Scanned".toList ≠ "Hybrid".toList := by
  refine ⟨rfl, by decide, by decide, rfl, rfl, by decide, by decide⟩

/-- Concrete instance of `processPage_hybrid` on `envH`. -/
theorem processPage_hybrid_witness :
    ∃ pi cnt, processPage envH 1 = .ok (pi, cnt) ∧
      pi.type = "Hybrid".toList ∧
      pi.text = extract_text_from_page envH 1 ++ '\n' ::
        List.intercalate [' ']
          (([(⟨[(0, 0)], "Body".toList, 1⟩ : OCRDetection)] : List OCRDetection).map
            OCRDetection.text) :=
  processPage_hybrid envH 1 img1 [] [⟨[(0, 0)], "Body".toList, 1⟩]
    (by decide) (by decide) rfl rfl

/-- C2: a page whose stripped embedded text has at least 50 characters is
classified Editable with the embedded text verbatim and the `"N/A"`
confidence sentinel, never invokes the rasterizer or the OCR engine (the
outcome is independent of them), and the sentinel differs from a formatted
`0.0` confidence. -/
theorem processPage_editable (env : PdfEnv) (n : Nat)
    (h : 50 ≤ (pyStrip (extract_text_from_page env n)).length) :
    processPage env n = .ok
      ({ page_num := n, type := "Editable".toList, confidence := "N/A".toList,
         text := extract_text_from_page env n, word_count := 0, preview_image := none },
       1, 0, 0) ∧
    (∀ env2 : PdfEnv, env2.extractText = env.extractText →
      processPage env2 n = processPage env n) ∧
    "N/A".toList ≠ fmtPct 0 := by
  have hnot : ¬ (pyStrip (extract_text_from_page env n)).length < 50 := not_lt.mpr h
  have hf : fmtPct 0 = ['0', '.', '0', '%'] := by
    simp only [fmtPct, zero_mul, round_zero]
    decide
  refine ⟨?_, ?_, by rw [hf]; decide⟩
  · simp only [processPage, if_neg hnot]
  · intro env2 hx
    have he : extract_text_from_page env2 n = extract_text_from_page env n := by
      unfold extract_text_from_page
      rw [hx]
    have hnot2 : ¬ (pyStrip (extract_text_from_page env2 n)).length < 50 := by
      rw [he]
      exact hnot
    simp only [processPage, if_neg hnot, if_neg hnot2, he]

/-- Concrete instance of `processPage_editable` on `envE`. -/
theorem processPage_editable_witness :
    processPage envE 1 = .ok
      ({ page_num := 1, type := "Editable".toList, confidence := "N/A".toList,
         text := extract_text_from_page envE 1, word_count := 0, preview_image := none },
       1, 0, 0) ∧
    (∀ env2 : PdfEnv, env2.extractText = envE.extractText →
      processPage env2 1 = processPage envE 1) ∧
    "N/A".toList ≠ fmtPct 0 :=
  processPage_editable envE 1 (by decide)

/-- C3 (amended): a page classified Scanned has embedded text that strips to
the empty string (it may be non-empty whitespace), and a page classified
Hybrid has non-empty embedded text with non-empty strip, its merged text
being the embedded text first, then a newline, then the OCR text. -/
theorem processPage_type_invariants (env : PdfEnv) (n : Nat) (pi : PageInfo)
    (e s h : Nat) (hp : processPage env n = .ok (pi, e, s, h)) :
    (pi.type = "Scanned".toList → pyStrip (extract_text_from_page env n) = []) ∧
    (pi.type = "Hybrid".toList →
      extract_text_from_page env n ≠ [] ∧
      pyStrip (extract_text_from_page env n) ≠ [] ∧
      ∃ o, pi.text = extract_text_from_page env n ++ '\n' :: o) := by
  by_cases hlt : (pyStrip (extract_text_from_page env n)).length < 50
  · cases hras : env.rasterize n with
    | error e2 =>
      simp only [processPage, if_pos hlt, hras] at hp
      exact Except.noConfusion hp
    | ok images =>
      cases images with
      | nil =>
        simp only [processPage, if_pos hlt, hras, Except.ok.injEq, Prod.mk.injEq] at hp
        obtain ⟨hpi, -⟩ := hp
        have ht : pi.type = [] := by rw [← hpi]
        constructor
        · intro hty
          rw [ht] at hty
          exact absurd hty (by decide)
        · intro hty
          rw [ht] at hty
          exact absurd hty (by decide)
      | cons im rest =>
        cases hocr : perform_ocr env im with
        | error e2 =>
          simp only [processPage, if_pos hlt, hras, hocr] at hp
          exact Except.noConfusion hp
        | ok triple =>
          obtain ⟨ocr_text, confidence, bboxes⟩ := triple
          by_cases hpos : 0 < (pyStrip (extract_text_from_page env n)).length
          · simp only [processPage, if_pos hlt, hras, hocr, if_pos hpos,
              Except.ok.injEq, Prod.mk.injEq] at hp
            obtain ⟨hpi, -⟩ := hp
            have ht : pi.type = "Hybrid".toList := by rw [← hpi]
            have htext : pi.text = extract_text_from_page env n ++ '\n' :: ocr_text := by
              rw [← hpi]
            constructor
            · intro hty
              rw [ht] at hty
              exact absurd hty (by decide)
            · intro _
              refine ⟨?_, List.ne_nil_of_length_pos hpos, ocr_text, htext⟩
              intro hx
              rw [hx, pyStrip_nil] at hpos
              exact absurd hpos (by decide)
          · simp only [processPage, if_pos hlt, hras, hocr, if_neg hpos,
              Except.ok.injEq, Prod.mk.injEq] at hp
            obtain ⟨hpi, -⟩ := hp
            have ht : pi.type = "Scanned".toList := by rw [← hpi]
            constructor
            · intro _
              exact List.eq_nil_of_length_eq_zero (Nat.eq_zero_of_not_pos hpos)
            · intro hty
              rw [ht] at hty
              exact absurd hty (by decide)
  · simp only [processPage, if_neg hlt, Except.ok.injEq, Prod.mk.injEq] at hp
    obtain ⟨hpi, -⟩ := hp
    have ht : pi.type = "Editable".toList := by rw [← hpi]
    constructor
    · intro hty
      rw [ht] at hty
      exact absurd hty (by decide)
    · intro hty
      rw [ht] at hty
      exact absurd hty (by decide)

/-- C3 counterexample to the claim as stated: a page classified Scanned
whose embedded text, as returned by the text extractor, is the non-empty
string `" "`. -/
theorem scanned_nonempty_embedded_counterexample :
    (processPage envA 1).toOption.map (fun x => x.1.type) = some ("Scanned".toList) ∧
    extract_text_from_page envA 1 = [' '] ∧
    ([' '] : List Char) ≠ [] := by
  refine ⟨by decide, rfl, by decide⟩

/-- Concrete instance of `processPage_type_invariants` on `envH`. -/
theorem processPage_type_invariants_witness :
    (pageH.type = "Scanned".toList → pyStrip (extract_text_from_page envH 1) = []) ∧
    (pageH.type = "Hybrid".toList →
      extract_text_from_page envH 1 ≠ [] ∧
      pyStrip (extract_text_from_page envH 1) ≠ [] ∧
      ∃ o, pageH.text = extract_text_from_page envH 1 ++ '\n' :: o) :=
  processPage_type_invariants envH 1 pageH 0 0 1 rfl

/-- Shape of a successful page step: the returned word count is still 0, the
three counter increments match the page's type, and the confidence field is
the sentinel or a formatted percentage. -/
theorem processPage_shape (env : PdfEnv) (n : Nat) (pi : PageInfo) (e s h : Nat)
    (hp : processPage env n = .ok (pi, e, s, h)) :
    pi.word_count = 0 ∧
    e = (if pi.type == "Editable".toList then 1 else 0) ∧
    s = (if pi.type == "Scanned".toList then 1 else 0) ∧
    h = (if pi.type == "Hybrid".toList then 1 else 0) ∧
    (pi.confidence = "N/A".toList ∨ ∃ q, pi.confidence = fmtPct q) := by
  by_cases hlt : (pyStrip (extract_text_from_page env n)).length < 50
  · cases hras : env.rasterize n with
    | error e2 =>
      simp only [processPage, if_pos hlt, hras] at hp
      exact Except.noConfusion hp
    | ok images =>
      cases images with
      | nil =>
        simp only [processPage, if_pos hlt, hras, Except.ok.injEq, Prod.mk.injEq] at hp
        obtain ⟨hpi, he, hs2, hh⟩ := hp
        subst he hs2 hh
        rw [← hpi]
        exact ⟨rfl, rfl, rfl, rfl, Or.inl rfl⟩
      | cons im rest =>
        cases hocr : perform_ocr env im with
        | error e2 =>
          simp only [processPage, if_pos hlt, hras, hocr] at hp
          exact Except.noConfusion hp
        | ok triple =>
          obtain ⟨ocr_text, confidence, bboxes⟩ := triple
          by_cases hpos : 0 < (pyStrip (extract_text_from_page env n)).length
          · simp only [processPage, if_pos hlt, hras, hocr, if_pos hpos,
              Except.ok.injEq, Prod.mk.injEq] at hp
            obtain ⟨hpi, he, hs2, hh⟩ := hp
            subst he hs2 hh
            rw [← hpi]
            exact ⟨rfl, rfl, rfl, rfl, Or.inr ⟨confidence, rfl⟩⟩
          · simp only [processPage, if_pos hlt, hras, hocr, if_neg hpos,
              Except.ok.injEq, Prod.mk.injEq] at hp
            obtain ⟨hpi, he, hs2, hh⟩ := hp
            subst he hs2 hh
            rw [← hpi]
            exact ⟨rfl, rfl, rfl, rfl, Or.inr ⟨confidence, rfl⟩⟩
  · simp only [processPage, if_neg hlt, Except.ok.injEq, Prod.mk.injEq] at hp
    obtain ⟨hpi, he, hs2, hh⟩ := hp
    subst he hs2 hh
    rw [← hpi]
    exact ⟨rfl, rfl, rfl, rfl, Or.inl rfl⟩

/-- One page step preserves the statistics invariant and extends the report
accumulator by the page's paragraph. -/
theorem pageStep_inv (env : PdfEnv) (r : Results) (acc : List (List Char)) (n : Nat)
    (r2 : Results) (acc2 : List (List Char))
    (hs : pageStep env r acc n = .ok (r2, acc2))
    (hi : statsInv r) (hacc : acc = r.pages.map pageBlock) :
    statsInv r2 ∧ acc2 = r2.pages.map pageBlock := by
  cases hpp : processPage env n with
  | error e =>
    simp only [pageStep, hpp] at hs
    exact Except.noConfusion hs
  | ok x =>
    obtain ⟨pi0, e, s, h⟩ := x
    obtain ⟨hw0, he, hsc, hhy, hconf⟩ := processPage_shape env n pi0 e s h hpp
    simp only [pageStep, hpp, Except.ok.injEq, Prod.mk.injEq] at hs
    obtain ⟨hr2, hacc2⟩ := hs
    subst hr2 hacc2
    obtain ⟨hi1, hi2, hi3, hi4, hi5, hi6, hi7⟩ := hi
    refine ⟨⟨?_, ?_, ?_, ?_, ?_, ?_, ?_⟩, ?_⟩
    · simp [hi1, List.map_append, List.sum_append]
    · simp [hi2, List.map_append, List.sum_append, count_words_and_chars]
    · simp [hi3, List.map_append, List.sum_append]
    · simp [hi4, he, List.countP_append, List.countP_cons]
    · simp [hi5, hsc, List.countP_append, List.countP_cons]
    · simp [hi6, hhy, List.countP_append, List.countP_cons]
    · intro p hp
      rcases List.mem_append.mp hp with hmem | hmem
      · exact hi7 p hmem
      · rw [List.mem_singleton.mp hmem]
        exact hconf
    · simp [hacc, List.map_append]

/-- The page loop preserves the statistics invariant and the report
accumulator. -/
theorem processPages_inv (env : PdfEnv) (nums : List Nat) :
    ∀ r acc r2 acc2, processPages env nums r acc = .ok (r2, acc2) →
      statsInv r → acc = r.pages.map pageBlock →
      statsInv r2 ∧ acc2 = r2.pages.map pageBlock := by
  induction nums with
  | nil =>
    intro r acc r2 acc2 hp hi hacc
    simp only [processPages, Except.ok.injEq, Prod.mk.injEq] at hp
    obtain ⟨h1, h2⟩ := hp
    subst h1 h2
    exact ⟨hi, hacc⟩
  | cons m rest ih =>
    intro r acc r2 acc2 hp hi hacc
    cases hps : pageStep env r acc m with
    | error e =>
      simp only [processPages, hps] at hp
      exact Except.noConfusion hp
    | ok x =>
      obtain ⟨rm, accm⟩ := x
      simp only [processPages, hps] at hp
      obtain ⟨hi2, hacc2⟩ := pageStep_inv env r acc m rm accm hps hi hacc
      exact ih rm accm r2 acc2 hp hi2 hacc2

/-- The report header only depends on the totals of the record. -/
theorem headerText_congr (r1 r2 : Results)
    (h1 : r1.total_words = r2.total_words)
    (h2 : r1.total_chars_with_spaces = r2.total_chars_with_spaces)
    (h3 : r1.total_chars_without_spaces = r2.total_chars_without_spaces)
    (h4 : r1.total_pages = r2.total_pages)
    (h5 : r1.editable_pages = r2.editable_pages)
    (h6 : r1.scanned_pages = r2.scanned_pages)
    (h7 : r1.hybrid_pages = r2.hybrid_pages) :
    headerText r1 = headerText r2 := by
  unfold headerText
  rw [h1, h2, h3, h4, h5, h6, h7]

/-- A successful run satisfies the statistics invariant, and its report text
is the header followed by the page paragraphs in page order. -/
theorem process_pdf_some_inv (env : PdfEnv) (r : Results) (h : process_pdf env = some r) :
    statsInv r ∧ r.extracted_text = headerText r ++ (r.pages.map pageBlock).flatten := by
  cases hov : env.openPdf with
  | error e =>
    simp only [process_pdf, hov] at h
    exact Option.noConfusion h
  | ok total =>
    cases hpr : processPages env (List.range' 1 total)
        { initResults with total_pages := total } [] with
    | error e =>
      simp only [process_pdf, hov, hpr] at h
      exact Option.noConfusion h
    | ok x =>
      obtain ⟨rr, acc⟩ := x
      simp only [process_pdf, hov, hpr, Option.some.injEq] at h
      have hinit : statsInv { initResults with total_pages := total } := by
        refine ⟨rfl, rfl, rfl, rfl, rfl, rfl, ?_⟩
        intro p hp
        exact absurd hp (List.not_mem_nil p)
      obtain ⟨hstats, hacc⟩ := processPages_inv env (List.range' 1 total) _ _ rr acc hpr hinit rfl
      have hpages : r.pages = rr.pages := by rw [← h]
      have hext : r.extracted_text = headerText rr ++ acc.flatten := by rw [← h]
      have hw1 : r.total_words = rr.total_words := by rw [← h]
      have hw2 : r.total_chars_with_spaces = rr.total_chars_with_spaces := by rw [← h]
      have hw3 : r.total_chars_without_spaces = rr.total_chars_without_spaces := by rw [← h]
      have hw4 : r.total_pages = rr.total_pages := by rw [← h]
      have hw5 : r.editable_pages = rr.editable_pages := by rw [← h]
      have hw6 : r.scanned_pages = rr.scanned_pages := by rw [← h]
      have hw7 : r.hybrid_pages = rr.hybrid_pages := by rw [← h]
      obtain ⟨s1, s2, s3, s4, s5, s6, s7⟩ := hstats
      constructor
      · refine ⟨?_, ?_, ?_, ?_, ?_, ?_, ?_⟩
        · rw [hw1, hpages]; exact s1
        · rw [hw2, hpages]; exact s2
        · rw [hw3, hpages]; exact s3
        · rw [hw5, hpages]; exact s4
        · rw [hw6, hpages]; exact s5
        · rw [hw7, hpages]; exact s6
        · rw [hpages]; exact s7
      · rw [hext, hacc, hpages,
          headerText_congr r rr hw1 hw2 hw3 hw4 hw5 hw6 hw7]

/-- C5: the report totals are an order-preserving fold over the pages — the
total word count is the sum of per-page word counts, the character totals
are the sums of the per-page merged-text lengths (with, and without spaces
and newlines), and each page-type counter counts the pages of that type. -/
theorem process_pdf_totals (env : PdfEnv) (r : Results) (h : process_pdf env = some r) :
    r.total_words = (r.pages.map PageInfo.word_count).sum ∧
    r.total_chars_with_spaces = (r.pages.map (fun p => p.text.length)).sum ∧
    r.total_chars_without_spaces =
      (r.pages.map (fun p => (count_words_and_chars p.text).2.2)).sum ∧
    r.editable_pages = r.pages.countP (fun p => p.type == "Editable".toList) ∧
    r.scanned_pages = r.pages.countP (fun p => p.type == "Scanned".toList) ∧
    r.hybrid_pages = r.pages.countP (fun p => p.type == "Hybrid".toList) := by
  obtain ⟨⟨s1, s2, s3, s4, s5, s6, -⟩, -⟩ := process_pdf_some_inv env r h
  exact ⟨s1, s2, s3, s4, s5, s6⟩

/-- Concrete instance of `process_pdf_totals` on `envE`. -/
theorem process_pdf_totals_witness :
    resE.total_words = (resE.pages.map PageInfo.word_count).sum ∧
    resE.total_chars_with_spaces = (resE.pages.map (fun p => p.text.length)).sum ∧
    resE.total_chars_without_spaces =
      (resE.pages.map (fun p => (count_words_and_chars p.text).2.2)).sum ∧
    resE.editable_pages = resE.pages.countP (fun p => p.type == "Editable".toList) ∧
    resE.scanned_pages = resE.pages.countP (fun p => p.type == "Scanned".toList) ∧
    resE.hybrid_pages = resE.pages.countP (fun p => p.type == "Hybrid".toList) :=
  process_pdf_totals envE resE rfl

/-- C8: the report text of a successful run is the fixed-format header (60
`=` characters around the totals block, as spelled out by `headerText`)
followed by, for every page in order, its paragraph (page number, type,
confidence, 60-dash separator, merged text, as spelled out by `pageBlock`),
and every page's confidence field is either the literal `"N/A"` or a
percentage formatted with one decimal place. -/
theorem process_pdf_report_format (env : PdfEnv) (r : Results)
    (h : process_pdf env = some r) :
    r.extracted_text = headerText r ++ (r.pages.map pageBlock).flatten ∧
    ∀ p ∈ r.pages, p.confidence = "N/A".toList ∨ ∃ q, p.confidence = fmtPct q := by
  obtain ⟨⟨-, -, -, -, -, -, s7⟩, hfmt⟩ := process_pdf_some_inv env r h
  exact ⟨hfmt, s7⟩

/-- Concrete instance of `process_pdf_report_format` on `envE`. -/
theorem process_pdf_report_format_witness :
    resE.extracted_text = headerText resE ++ (resE.pages.map pageBlock).flatten ∧
    ∀ p ∈ resE.pages, p.confidence = "N/A".toList ∨ ∃ q, p.confidence = fmtPct q :=
  process_pdf_report_format envE resE rfl

/-- A failing `perform_ocr` call means the OCR engine itself raised. -/
theorem perform_ocr_error (env : PdfEnv) (img : Image)
    (h : perform_ocr env img = .error ()) :
    env.readtext (npArrayOfImage img) = .error () := by
  cases hrd : env.readtext (npArrayOfImage img) with
  | error e =>
    cases e
    rfl
  | ok dets =>
    cases dets with
    | nil =>
      simp only [perform_ocr, hrd] at h
      exact Except.noConfusion h
    | cons d rest =>
      simp only [perform_ocr, hrd] at h
      exact Except.noConfusion h

/-- A failing page step can only come from a raised rasterization or a
raised OCR call. -/
theorem processPage_error_cases (env : PdfEnv) (n : Nat)
    (hp : processPage env n = .error ()) :
    env.rasterize n = .error () ∨
    ∃ img rest, env.rasterize n = .ok (img :: rest) ∧
      env.readtext (npArrayOfImage img) = .error () := by
  by_cases hlt : (pyStrip (extract_text_from_page env n)).length < 50
  · cases hras : env.rasterize n with
    | error e =>
      cases e
      exact Or.inl rfl
    | ok images =>
      cases images with
      | nil =>
        simp only [processPage, if_pos hlt, hras] at hp
        exact Except.noConfusion hp
      | cons im rest =>
        cases hocr : perform_ocr env im with
        | error e =>
          cases e
          exact Or.inr ⟨im, rest, rfl, perform_ocr_error env im hocr⟩
        | ok triple =>
          obtain ⟨ocr_text, confidence, bboxes⟩ := triple
          by_cases hpos : 0 < (pyStrip (extract_text_from_page env n)).length
          · simp only [processPage, if_pos hlt, hras, hocr, if_pos hpos] at hp
            exact Except.noConfusion hp
          · simp only [processPage, if_pos hlt, hras, hocr, if_neg hpos] at hp
            exact Except.noConfusion hp
  · simp only [processPage, if_neg hlt] at hp
    exact Except.noConfusion hp

/-- If any page of the loop fails, the whole loop fails. -/
theorem processPages_error_of_page (env : PdfEnv) (nums : List Nat) (n : Nat)
    (hn : n ∈ nums) (he : processPage env n = .error ()) :
    ∀ r acc, processPages env nums r acc = .error () := by
  induction nums with
  | nil => exact absurd hn (List.not_mem_nil n)
  | cons m rest ih =>
    intro r acc
    cases hps : pageStep env r acc m with
    | error e =>
      cases e
      simp only [processPages, hps]
    | ok x =>
      obtain ⟨rm, accm⟩ := x
      rcases List.mem_cons.mp hn with rfl | hmem
      · exfalso
        simp only [pageStep, he] at hps
        exact Except.noConfusion hps
      · simp only [processPages, hps]
        exact ih hmem rm accm

/-- C7: extraction failures are swallowed into the empty string and never
abort the run, while a raised rasterization or OCR call on any processed
page makes the whole run return the failure result `none` (no partial
report); conversely a failing page step can only be caused by rasterization
or OCR raising. -/
theorem failure_policy :
    (∀ (env : PdfEnv) (n : Nat), env.extractText n = .error () →
      extract_text_from_page env n = []) ∧
    (∀ (env : PdfEnv) (total n : Nat), env.openPdf = .ok total →
      n ∈ List.range' 1 total → processPage env n = .error () →
      process_pdf env = none) ∧
    (∀ (env : PdfEnv) (n : Nat), processPage env n = .error () →
      env.rasterize n = .error () ∨
      ∃ img rest, env.rasterize n = .ok (img :: rest) ∧
        env.readtext (npArrayOfImage img) = .error ()) := by
  refine ⟨?_, ?_, ?_⟩
  · intro env n hx
    unfold extract_text_from_page
    rw [hx]
  · intro env total n hov hn hpe
    have hpp := processPages_error_of_page env (List.range' 1 total) n hn hpe
      { initResults with total_pages := total } []
    simp only [process_pdf, hov, hpp]
  · intro env n hp
    exact processPage_error_cases env n hp

/-- Concrete instance of `failure_policy` on `envF`. -/
theorem failure_policy_witness :
    extract_text_from_page envF 1 = [] ∧
    process_pdf envF = none ∧
    (envF.rasterize 1 = .error () ∨
      ∃ img rest, envF.rasterize 1 = .ok (img :: rest) ∧
        envF.readtext (npArrayOfImage img) = .error ()) := by
  have hpe : processPage envF 1 = .error () := rfl
  exact ⟨failure_policy.1 envF 1 rfl,
    failure_policy.2.1 envF 1 1 rfl (by decide) hpe,
    failure_policy.2.2 envF 1 hpe⟩

/-- C10: on a page whose rasterizer returns an empty image list without
raising, the run succeeds, the page record keeps its defaults (empty type,
`"N/A"` confidence, empty text, zero word count, no preview), no page-type
counter is incremented, and the three counters sum to strictly less than
the total page count. -/
theorem empty_raster_page_defaults :
    process_pdf envJ = some resJ ∧
    resJ.pages.map (fun p => (p.type, p.confidence, p.text, p.word_count, p.preview_image)) =
      [([], "N/A".toList, [], 0, none)] ∧
    resJ.editable_pages = 0 ∧
    resJ.scanned_pages = 0 ∧
    resJ.hybrid_pages = 0 ∧
    resJ.total_pages = 1 ∧
    resJ.editable_pages + resJ.scanned_pages + resJ.hybrid_pages < resJ.total_pages := by
  exact ⟨rfl, rfl, rfl, rfl, rfl, rfl, by decide⟩

end PdfExtract
